import Mathlib

/-!
Shallow embedding of the calendar widget's pure core: the date utilities
(`src/utils/date.utils.ts`) and the event utilities (`event.utils` module).

Modelling conventions:
* A JavaScript `Date` is modelled by `Instant`: a proleptic-Gregorian civil
  date (`CDate`) plus hour/minute/second/millisecond fields, interpreted in a
  fixed local UTC offset (the repository has no timezone or DST handling, and
  timezone conversion is an explicit non-goal of the spec).  The timestamp
  (`Date.prototype.getTime`) is `toMillis`.  A JS `Date` always carries
  normalized civil fields, which is captured by the `ValidInstant` predicate.
* Day numbers are rata-die style: `rataDie ⟨1,1,1⟩ = 1`, which is a Monday,
  so `n % 7 = 0` means the day `n` is a Sunday (date-fns `weekStartsOn: 0`).
* The `yyyy-MM-dd` date strings and `HH:mm` time strings of the form layer
  are represented structurally: a date input holds `Option CDate` (`none` is
  the empty string) and a time input holds `Option TimeHM`.  `TimeHM` is
  deliberately unbounded so that an out-of-range value such as 24:00 is
  representable; `ValidTimeHM` says the value denotes a real `HH:mm`
  time of day.
* JavaScript `Array.prototype.sort` is stable and sorts ascending for the
  comparator `(a, b) => a.startDate.getTime() - b.startDate.getTime()`; it is
  modelled by `List.mergeSort`, the stable ascending sort.
* `String.prototype.trim` is modelled by `jsTrim` (drop whitespace from both
  ends, stated over the character list so it is kernel-computable) and
  `.length` by `String.length`; the UTF-16 vs. code-point distinction and
  the exact whitespace class are immaterial to the claims checked here.
-/

/-- `String.prototype.trim`: remove leading and trailing whitespace. -/
def jsTrim (s : String) : String :=
  String.mk (((s.data.dropWhile Char.isWhitespace).reverse.dropWhile Char.isWhitespace).reverse)

/-- A civil (calendar) date: year, month (1-12), day (1-based). -/
structure CDate where
  year : Nat
  month : Nat
  day : Nat
deriving DecidableEq, Repr

/-- Gregorian leap-year rule. -/
def isLeapYear (y : Nat) : Bool :=
  y % 4 == 0 && (y % 100 != 0 || y % 400 == 0)

/-- Number of days in month `m` of year `y` (months outside 1-12 unused). -/
def daysInMonth (y : Nat) : Nat → Nat
  | 2 => if isLeapYear y then 29 else 28
  | 4 => 30
  | 6 => 30
  | 9 => 30
  | 11 => 30
  | _ => 31

/-- Days of year `y` that precede month `m`. -/
def daysBeforeMonth (y : Nat) : Nat → Nat
  | 0 => 0
  | 1 => 0
  | m + 1 => daysBeforeMonth y m + daysInMonth y m

/-- Days before January 1 of year `y` in the proleptic Gregorian calendar
(rata-die convention: day 1 is 0001-01-01). -/
def daysBeforeYear (y : Nat) : Int :=
  365 * ((y : Int) - 1) + ((y : Int) - 1) / 4
    - ((y : Int) - 1) / 100 + ((y : Int) - 1) / 400

/-- Rata-die day number of a civil date (0001-01-01 ↦ 1, a Monday). -/
def rataDie (d : CDate) : Int :=
  daysBeforeYear d.year + daysBeforeMonth d.year d.month + d.day

/-- A well-formed civil date. -/
def ValidCDate (d : CDate) : Prop :=
  1 ≤ d.year ∧ 1 ≤ d.month ∧ d.month ≤ 12 ∧ 1 ≤ d.day ∧ d.day ≤ daysInMonth d.year d.month

instance : DecidablePred ValidCDate := fun d => by unfold ValidCDate; infer_instance

/-- Model of a JavaScript `Date` value: civil date plus time-of-day fields. -/
structure Instant where
  date : CDate
  hour : Nat
  minute : Nat
  second : Nat
  ms : Nat
deriving DecidableEq, Repr

/-- The fields a real (normalized) JS `Date` can carry. -/
def ValidInstant (i : Instant) : Prop :=
  ValidCDate i.date ∧ i.hour ≤ 23 ∧ i.minute ≤ 59 ∧ i.second ≤ 59 ∧ i.ms ≤ 999

instance : DecidablePred ValidInstant := fun i => by unfold ValidInstant; infer_instance

/-- Milliseconds of an instant past its own midnight. -/
def offsetMs (i : Instant) : Int :=
  (i.hour : Int) * 3600000 + (i.minute : Int) * 60000 + (i.second : Int) * 1000 + (i.ms : Int)

/-- `Date.prototype.getTime`, up to the (irrelevant) choice of epoch:
milliseconds represented by the instant. -/
def toMillis (i : Instant) : Int :=
  rataDie i.date * 86400000 + offsetMs i

/-- date-fns `startOfDay`. -/
def startOfDay (i : Instant) : Instant :=
  ⟨i.date, 0, 0, 0, 0⟩

/-- date-fns `endOfDay` (23:59:59.999 of the same civil date). -/
def endOfDay (i : Instant) : Instant :=
  ⟨i.date, 23, 59, 59, 999⟩

/-- date-fns `isSameDay`: equal midnights. -/
def isSameDay (a b : Instant) : Bool :=
  decide (toMillis (startOfDay a) = toMillis (startOfDay b))

/-- date-fns `isWithinInterval` (inclusive on both ends; the repository only
calls it with well-ordered intervals, so the throwing branch is not modelled). -/
def isWithinInterval (x s e : Instant) : Bool :=
  decide (toMillis s ≤ toMillis x ∧ toMillis x ≤ toMillis e)

/-- `src/utils/date.utils.ts`: week-day index helpers on day numbers.
date-fns `startOfWeek(·, { weekStartsOn: 0 })` at day-number level:
move back to the Sunday on or before `n` (`n % 7` is the Sunday-based
weekday of day `n`). -/
def startOfWeekNum (n : Int) : Int :=
  n - n % 7

/-- date-fns `endOfWeek(·, { weekStartsOn: 0 })` at day-number level:
the Saturday on or after `n`. -/
def endOfWeekNum (n : Int) : Int :=
  n + (6 - n % 7)

/-- date-fns `eachDayOfInterval`: every calendar day from `s` to `e`
inclusive (the repository only calls it with `s ≤ e`). -/
def eachDayOfIntervalNum (s e : Int) : List Int :=
  (List.range (e + 1 - s).toNat).map (fun i : Nat => s + (i : Int))

/-- The `while (days.length < 42)` padding loop of `getCalendarGrid`:
append the day after the current last entry until there are 42 entries
(adding `24 * 60 * 60 * 1000` ms to a midnight is the next midnight in the
fixed-offset model).  On an empty list the JS loop would not terminate;
that branch is unreachable from `getCalendarGrid`. -/
def padTo42 (l : List Int) : List Int :=
  if l.length < 42 then
    match l.getLast? with
    | some lastDay => padTo42 (l ++ [lastDay + 1])
    | none => l
  else l
termination_by 42 - l.length
decreasing_by simp; omega

/-- `getCalendarGrid` from `src/utils/date.utils.ts`, with every produced
`Date` represented by its day number.  Only the year and month of the
reference date are consulted (`startOfMonth` / `endOfMonth`). -/
def getCalendarGrid (d : CDate) : List Int :=
  let monthStart := rataDie ⟨d.year, d.month, 1⟩
  let monthEnd := rataDie ⟨d.year, d.month, daysInMonth d.year d.month⟩
  let calendarStart := startOfWeekNum monthStart
  let calendarEnd := endOfWeekNum monthEnd
  (padTo42 (eachDayOfIntervalNum calendarStart calendarEnd)).take 42

/-- `getTimeSlotPosition` from `src/utils/date.utils.ts`
(JS floating-point arithmetic modelled exactly over `ℚ`). -/
def getTimeSlotPosition (date : Instant) : ℚ :=
  (((date.hour : ℚ) * 60 + (date.minute : ℚ)) / (24 * 60)) * 100

/-- date-fns `differenceInMinutes`: the millisecond difference divided by
60000 and truncated toward zero. -/
def differenceInMinutes (a b : Instant) : Int :=
  Int.tdiv (toMillis a - toMillis b) 60000

/-- `getEventHeight` from `src/utils/date.utils.ts`. -/
def getEventHeight (startDate endDate : Instant) : ℚ :=
  ((differenceInMinutes endDate startDate : ℚ) / (24 * 60)) * 100

/-- An event, `CalendarEvent` from `types/calendar.types.ts`
(`undefined` optionals are `none`). -/
structure CalendarEvent where
  id : String
  title : String
  description : Option String
  startDate : Instant
  endDate : Instant
  color : Option String
  category : Option String
deriving DecidableEq, Repr

/-- An entry of the color palette, from `types/calendar.types.ts`. -/
structure EventColor where
  name : String
  value : String
deriving DecidableEq, Repr

/-- `EVENT_COLORS` from `types/calendar.types.ts`. -/
def EVENT_COLORS : List EventColor :=
  [⟨"Blue", "#3b82f6"⟩, ⟨"Green", "#10b981"⟩, ⟨"Yellow", "#f59e0b"⟩,
   ⟨"Purple", "#8b5cf6"⟩, ⟨"Pink", "#ec4899"⟩, ⟨"Red", "#ef4444"⟩,
   ⟨"Cyan", "#06b6d4"⟩, ⟨"Orange", "#f97316"⟩]

/-- An `HH:mm` time-input value, structurally.  Unbounded on purpose: the
string `"24:00"` is the value `⟨24, 0⟩`. -/
structure TimeHM where
  hour : Nat
  minute : Nat
deriving DecidableEq, Repr

/-- `⟨h, m⟩` denotes a real `HH:mm` time of day. -/
def ValidTimeHM (t : TimeHM) : Prop :=
  t.hour ≤ 23 ∧ t.minute ≤ 59

instance : DecidablePred ValidTimeHM := fun t => by unfold ValidTimeHM; infer_instance

/-- `EventFormData` from `types/calendar.types.ts`.  The `yyyy-MM-dd` and
`HH:mm` string fields are structural; `none` models the empty string. -/
structure EventFormData where
  title : String
  description : String
  startDate : Option CDate
  startTime : Option TimeHM
  endDate : Option CDate
  endTime : Option TimeHM
  color : String
  category : String
deriving DecidableEq, Repr

/-- `FormErrors` from `types/calendar.types.ts`: a partial field-to-message
mapping (every absent key is `none`; the empty mapping is `{}`). -/
structure FormErrors where
  title : Option String := none
  description : Option String := none
  startDate : Option String := none
  startTime : Option String := none
  endDate : Option String := none
  endTime : Option String := none
  color : Option String := none
  category : Option String := none
deriving DecidableEq, Repr

/-- Combining a present date input with a (possibly absent) time input, the
core of `parseDateTimeInputs`: `parseISO` of the date string is midnight of
that civil date, and `setHours`/`setMinutes` overwrite the hour and minute
(an absent time contributes 0, since `Number('')` is `0`). -/
def combineDT (d : CDate) (t : Option TimeHM) : Instant :=
  ⟨d, (t.getD ⟨0, 0⟩).hour, (t.getD ⟨0, 0⟩).minute, 0, 0⟩

/-- `parseDateTimeInputs` from `src/utils/date.utils.ts`.  An empty date
string makes `parseISO` return an Invalid Date, modelled as `none`. -/
def parseDateTimeInputs (dateField : Option CDate) (timeField : Option TimeHM) :
    Option Instant :=
  dateField.map (fun d => combineDT d timeField)

/-- Comparator used by the event-bucketing sorts:
`(a, b) => a.startDate.getTime() - b.startDate.getTime()`. -/
def startLE (a b : CalendarEvent) : Bool :=
  decide (toMillis a.startDate ≤ toMillis b.startDate)

/-- `getEventsForDate` from the event utilities: filter the events whose
day-interval covers the date (or that start or end on it), then sort
ascending by start instant (stable). -/
def getEventsForDate (events : List CalendarEvent) (date : Instant) :
    List CalendarEvent :=
  (events.filter fun event =>
    isWithinInterval (startOfDay date) (startOfDay event.startDate) (endOfDay event.endDate)
      || isSameDay event.startDate date
      || isSameDay event.endDate date).mergeSort startLE

/-- `getEventsForWeek` from the event utilities: `weekDays[0]` and
`weekDays[weekDays.length - 1]` are `undefined` exactly when the list is
empty (`head?` / `getLast?` are `none`), in which case the guard returns
the empty list.  Otherwise keep the events whose start or end instant lies
within the week range, sorted as above. -/
def getEventsForWeek (events : List CalendarEvent) (weekDays : List Instant) :
    List CalendarEvent :=
  match weekDays.head?, weekDays.getLast? with
  | some weekStart, some weekEnd =>
      (events.filter fun event =>
        isWithinInterval event.startDate (startOfDay weekStart) (endOfDay weekEnd)
          || isWithinInterval event.endDate (startOfDay weekStart) (endOfDay weekEnd)).mergeSort
        startLE
  | _, _ => []

/-- `validateEventForm` from the event utilities, with each sequential
`errors.x = ...` assignment modelled as a record update. -/
def validateEventForm (data : EventFormData) : FormErrors :=
  let e0 : FormErrors := {}
  let e1 :=
    if jsTrim data.title = "" then { e0 with title := some "Title is required" }
    else if data.title.length > 100 then
      { e0 with title := some "Title must be 100 characters or less" }
    else e0
  let e2 :=
    if data.description ≠ "" ∧ data.description.length > 500 then
      { e1 with description := some "Description must be 500 characters or less" }
    else e1
  let e3 :=
    if data.startDate = none then { e2 with startDate := some "Start date is required" }
    else e2
  let e4 :=
    if data.startTime = none then { e3 with startTime := some "Start time is required" }
    else e3
  let e5 :=
    if data.endDate = none then { e4 with endDate := some "End date is required" }
    else e4
  let e6 :=
    if data.endTime = none then { e5 with endTime := some "End time is required" }
    else e5
  match data.startDate, data.startTime, data.endDate, data.endTime with
  | some sd, some st, some ed, some et =>
      if toMillis (combineDT ed (some et)) ≤ toMillis (combineDT sd (some st)) then
        { e6 with endDate := some "End must be after start" }
      else e6
  | _, _, _, _ => e6

/-- `formDataToEvent` from the event utilities.  The impure
`generateEventId()` (clock plus random suffix) is abstracted as the
`freshId` argument, used only when no `existingId` is supplied.  When a
date field is empty the JS value would carry an Invalid Date; that case is
surfaced as `none`. -/
def formDataToEvent (data : EventFormData) (existingId : Option String)
    (freshId : String) : Option CalendarEvent :=
  match parseDateTimeInputs data.startDate data.startTime,
      parseDateTimeInputs data.endDate data.endTime with
  | some s, some e =>
      some
        { id := existingId.getD freshId
          title := jsTrim data.title
          description := if jsTrim data.description = "" then none else some (jsTrim data.description)
          startDate := s
          endDate := e
          color :=
            if data.color = "" then (EVENT_COLORS.head?.map EventColor.value).getD ""
            else data.color
          category := if data.category = "" then none else some data.category }
  | _, _ => none

/-- `eventToFormData` from the event utilities: `formatDateForInput` keeps
the civil date, `formatTimeForInput` keeps the hour and minute. -/
def eventToFormData (event : CalendarEvent) : EventFormData :=
  { title := event.title
    description := event.description.getD ""
    startDate := some event.startDate.date
    startTime := some ⟨event.startDate.hour, event.startDate.minute⟩
    endDate := some event.endDate.date
    endTime := some ⟨event.endDate.hour, event.endDate.minute⟩
    color := event.color.getD ((EVENT_COLORS.head?.map EventColor.value).getD "#3b82f6")
    category := event.category.getD "" }

/-- `getDefaultFormData` from the event utilities.  The `new Date()` clock
read is abstracted as the `clock` argument; `now` is the clicked date when
one is supplied, exactly as in `const now = date ?? new Date()`.  The
template `String(h).padStart(2, '0') + ":00"` is the structural time
`⟨h, 0⟩`. -/
def getDefaultFormData (clock : Instant) (date : Option Instant) : EventFormData :=
  let now := date.getD clock
  let startDate := some now.date
  let startHour := now.hour + 1
  { title := ""
    description := ""
    startDate := startDate
    startTime := some ⟨startHour, 0⟩
    endDate := startDate
    endTime := some ⟨startHour + 1, 0⟩
    color := (EVENT_COLORS.head?.map EventColor.value).getD "#3b82f6"
    category := "" }

/-- The single-date bucketing condition exactly as the specification words
it: the event's `[start, end]` interval intersects the full 24-hour span of
the date (`e.start ≤ endOfDay d` and `e.end ≥ startOfDay d`).  Stated from
the spec, for comparison against `getEventsForDate`. -/
def specDateCond (d : Instant) (e : CalendarEvent) : Bool :=
  decide (toMillis e.startDate ≤ toMillis (endOfDay d)
    ∧ toMillis (startOfDay d) ≤ toMillis e.endDate)

/-! Concrete inputs used by the witnesses and counterexamples below. -/

/-- Midnight of 2024-03-10 (a Sunday). -/
def day10 : Instant := ⟨⟨2024, 3, 10⟩, 0, 0, 0, 0⟩

/-- Midnight of 2024-03-16 (the following Saturday). -/
def day16 : Instant := ⟨⟨2024, 3, 16⟩, 0, 0, 0, 0⟩

/-- The calendar week 2024-03-10 .. 2024-03-16 as seven midnights. -/
def week0 : List Instant :=
  [day10, ⟨⟨2024, 3, 11⟩, 0, 0, 0, 0⟩, ⟨⟨2024, 3, 12⟩, 0, 0, 0, 0⟩,
   ⟨⟨2024, 3, 13⟩, 0, 0, 0, 0⟩, ⟨⟨2024, 3, 14⟩, 0, 0, 0, 0⟩,
   ⟨⟨2024, 3, 15⟩, 0, 0, 0, 0⟩, day16]

/-- An event that starts before that week and ends after it, touching every
day of the week. -/
def spanEvent : CalendarEvent :=
  { id := "evt-span", title := "Conference", description := none,
    startDate := ⟨⟨2024, 3, 9⟩, 12, 0, 0, 0⟩,
    endDate := ⟨⟨2024, 3, 17⟩, 12, 0, 0, 0⟩,
    color := some "#3b82f6", category := some "Work" }

/-- A one-hour event inside that week. -/
def ev1 : CalendarEvent :=
  { id := "evt-1", title := "Standup", description := some "Daily sync",
    startDate := ⟨⟨2024, 3, 11⟩, 9, 0, 0, 0⟩,
    endDate := ⟨⟨2024, 3, 11⟩, 9, 30, 0, 0⟩,
    color := some "#3b82f6", category := some "Meeting" }

/-- Another event, outside 2024-03-11. -/
def ev2 : CalendarEvent :=
  { id := "evt-2", title := "Review", description := none,
    startDate := ⟨⟨2024, 3, 14⟩, 14, 0, 0, 0⟩,
    endDate := ⟨⟨2024, 3, 14⟩, 15, 30, 0, 0⟩,
    color := some "#10b981", category := some "Design" }

/-- A data-model-valid event whose `color` is absent. -/
def noColorEvent : CalendarEvent :=
  { id := "evt-nc", title := "Lunch", description := none,
    startDate := ⟨⟨2024, 3, 10⟩, 12, 0, 0, 0⟩,
    endDate := ⟨⟨2024, 3, 10⟩, 13, 0, 0, 0⟩,
    color := none, category := none }

/-- An event satisfying every hypothesis of the amended round-trip law. -/
def rtEvent : CalendarEvent :=
  { id := "evt-rt", title := "Standup", description := some "Daily sync",
    startDate := ⟨⟨2024, 3, 10⟩, 9, 0, 0, 0⟩,
    endDate := ⟨⟨2024, 3, 10⟩, 10, 0, 0, 0⟩,
    color := some "#10b981", category := some "Meeting" }

/-- A string of 101 `a` characters. -/
def a101 : String := String.mk (List.replicate 101 'a')

/-- A title whose trimmed form has 100 characters but whose raw form has 102. -/
def paddedTitle : String := " " ++ String.mk (List.replicate 100 'a') ++ " "

/-- A fully-filled, valid form record. -/
def okForm : EventFormData :=
  { title := "Meeting", description := "Weekly sync",
    startDate := some ⟨2024, 3, 10⟩, startTime := some ⟨9, 0⟩,
    endDate := some ⟨2024, 3, 10⟩, endTime := some ⟨10, 0⟩,
    color := "#3b82f6", category := "Meeting" }

/-- The same form with a 101-character (present, but over-long) title. -/
def longTitleForm : EventFormData :=
  { okForm with title := a101 }

/-- The same form with `paddedTitle`. -/
def paddedTitleForm : EventFormData :=
  { okForm with title := paddedTitle }

/-- A clock reading of 2024-03-10 23:30. -/
def clock23 : Instant := ⟨⟨2024, 3, 10⟩, 23, 30, 0, 0⟩

/-- A clock reading of 2024-03-10 14:05. -/
def clock14 : Instant := ⟨⟨2024, 3, 10⟩, 14, 5, 0, 0⟩

/-- 2024-03-10 23:59. -/
def lateInstant : Instant := ⟨⟨2024, 3, 10⟩, 23, 59, 0, 0⟩

/-- 2024-03-10 09:00:00.000. -/
def nineAM : Instant := ⟨⟨2024, 3, 10⟩, 9, 0, 0, 0⟩

/-- 2024-03-10 09:00:30.000 — thirty seconds after `nineAM`. -/
def nineAM30s : Instant := ⟨⟨2024, 3, 10⟩, 9, 0, 30, 0⟩

/-- 2024-03-10 10:00:00.000. -/
def tenAM : Instant := ⟨⟨2024, 3, 10⟩, 10, 0, 0, 0⟩

/-! Lemmas. -/

/-- Every month length lies between 28 and 31 days. -/
theorem daysInMonth_bounds (y m : Nat) : 28 ≤ daysInMonth y m ∧ daysInMonth y m ≤ 31 := by
  unfold daysInMonth
  split
  · split <;> omega
  all_goals omega

/-- `padTo42` leaves a full list alone. -/
theorem padTo42_of_full (l : List Int) (h : ¬ l.length < 42) : padTo42 l = l := by
  rw [padTo42]
  simp [h]

/-- `padTo42` completes an arithmetic range of 1 to 42 consecutive days to
exactly 42 consecutive days. -/
theorem padTo42_range (s : Int) (k : Nat) :
    ∀ n : Nat, 1 ≤ n → n + k = 42 →
      padTo42 ((List.range n).map (fun i : Nat => s + (i : Int)))
        = (List.range 42).map (fun i : Nat => s + (i : Int)) := by
  induction k with
  | zero =>
      intro n h1 h2
      have hn : n = 42 := by omega
      subst hn
      exact padTo42_of_full _ (by simp)
  | succ k ih =>
      intro n h1 h2
      have hlt : ((List.range n).map (fun i : Nat => s + (i : Int))).length < 42 := by
        simp
        omega
      have hlast : ((List.range n).map (fun i : Nat => s + (i : Int))).getLast?
          = some (s + ((n - 1 : Nat) : Int)) := by
        rw [List.getLast?_eq_getElem?]
        simp only [List.length_map, List.length_range]
        have hn1 : n - 1 < n := by omega
        simp [List.getElem?_range, hn1]
      rw [padTo42, if_pos hlt, hlast]
      show padTo42 ((List.range n).map (fun i : Nat => s + (i : Int)) ++ [s + ((n - 1 : Nat) : Int) + 1])
        = (List.range 42).map (fun i : Nat => s + (i : Int))
      have hstep : (List.range n).map (fun i : Nat => s + (i : Int)) ++ [s + ((n - 1 : Nat) : Int) + 1]
          = (List.range (n + 1)).map (fun i : Nat => s + (i : Int)) := by
        rw [List.range_succ, List.map_append]
        simp only [List.map_cons, List.map_nil]
        have : s + ((n - 1 : Nat) : Int) + 1 = s + (n : Int) := by omega
        rw [this]
      rw [hstep]
      exact ih (n + 1) (by omega) (by omega)

/-- An arithmetic range map is an infix of a longer one starting `a` earlier
and extending `m` further. -/
theorem range_map_add_infix (c : Int) (a b m : Nat) :
    (List.range b).map (fun i : Nat => c + (a : Int) + (i : Int))
      <:+: (List.range (a + b + m)).map (fun i : Nat => c + (i : Int)) := by
  have h1 : (List.range (a + b + m)).map (fun i : Nat => c + (i : Int))
      = (List.range a).map (fun i : Nat => c + (i : Int))
        ++ (List.range b).map (fun i : Nat => c + (a : Int) + (i : Int))
        ++ (List.range m).map (fun i : Nat => c + ((a + b : Nat) : Int) + (i : Int)) := by
    rw [List.range_add (a + b) m, List.range_add a b, List.map_append, List.map_append,
      List.map_map, List.map_map]
    congr 1
    · congr 1
      apply List.map_congr_left
      intro x _
      simp only [Function.comp_apply]
      push_cast
      ring
    · apply List.map_congr_left
      intro x _
      simp only [Function.comp_apply]
      push_cast
      ring
  exact ⟨(List.range a).map (fun i : Nat => c + (i : Int)),
    (List.range m).map (fun i : Nat => c + ((a + b : Nat) : Int) + (i : Int)), h1.symm⟩

/-- C3: for every reference date, the month grid (`getCalendarGrid`) has
exactly 42 entries, equals the run of 42 consecutive day numbers starting at
the Sunday (`% 7 = 0`) on or before the first day of the reference month —
hence is strictly ascending by exactly one calendar day per step — and
contains the entire reference month as a contiguous infix; this covers the
case where the month already starts on the week-start day and the case
where trailing padding past the month is needed. -/
theorem getCalendarGrid_spec (d : CDate) :
    (getCalendarGrid d).length = 42 ∧
    getCalendarGrid d
      = (List.range 42).map
          (fun i : Nat => startOfWeekNum (rataDie ⟨d.year, d.month, 1⟩) + (i : Int)) ∧
    (getCalendarGrid d).head? = some (startOfWeekNum (rataDie ⟨d.year, d.month, 1⟩)) ∧
    startOfWeekNum (rataDie ⟨d.year, d.month, 1⟩) % 7 = 0 ∧
    startOfWeekNum (rataDie ⟨d.year, d.month, 1⟩) ≤ rataDie ⟨d.year, d.month, 1⟩ ∧
    (List.range (daysInMonth d.year d.month)).map
        (fun k : Nat => rataDie ⟨d.year, d.month, k + 1⟩)
      <:+: getCalendarGrid d := by
  have hlb := daysInMonth_bounds d.year d.month
  set len := daysInMonth d.year d.month with hlendef
  set F := rataDie ⟨d.year, d.month, 1⟩ with hFdef
  have h7a : 0 ≤ F % 7 := Int.emod_nonneg F (by norm_num)
  have h7b : F % 7 < 7 := Int.emod_lt_of_pos F (by norm_num)
  have hlen28 : (28 : Int) ≤ (len : Int) := by exact_mod_cast hlb.1
  have hlen31 : (len : Int) ≤ 31 := by exact_mod_cast hlb.2
  have hL : rataDie ⟨d.year, d.month, len⟩ = F + (len : Int) - 1 := by
    rw [hFdef]
    simp only [rataDie]
    push_cast
    ring
  have key : getCalendarGrid d
      = (List.range 42).map (fun i : Nat => startOfWeekNum F + (i : Int)) := by
    simp only [getCalendarGrid]
    rw [← hlendef, ← hFdef, hL]
    simp only [eachDayOfIntervalNum]
    rw [padTo42_range (startOfWeekNum F)
      (42 - (endOfWeekNum (F + (len : Int) - 1) + 1 - startOfWeekNum F).toNat)
      ((endOfWeekNum (F + (len : Int) - 1) + 1 - startOfWeekNum F).toNat)
      (by unfold endOfWeekNum startOfWeekNum; omega)
      (by unfold endOfWeekNum startOfWeekNum; omega)]
    exact List.take_of_length_le (by simp)
  refine ⟨by rw [key]; simp, key, ?_, ?_, ?_, ?_⟩
  · rw [key, List.head?_eq_getElem?]
    simp [List.getElem?_range]
  · unfold startOfWeekNum
    omega
  · unfold startOfWeekNum
    omega
  · have hmonth : (List.range len).map (fun k : Nat => rataDie ⟨d.year, d.month, k + 1⟩)
        = (List.range len).map
            (fun k : Nat => startOfWeekNum F + (((F % 7).toNat : Nat) : Int) + (k : Int)) := by
      apply List.map_congr_left
      intro k _
      rw [Int.toNat_of_nonneg h7a, hFdef]
      unfold startOfWeekNum
      simp only [rataDie]
      push_cast
      ring
    rw [key, hmonth]
    have hinf := range_map_add_infix (startOfWeekNum F) (F % 7).toNat len
      (42 - ((F % 7).toNat + len))
    have h42 : (F % 7).toNat + len + (42 - ((F % 7).toNat + len)) = 42 := by omega
    rw [h42] at hinf
    exact hinf

/-- Rata-die anchor: day 1 is 0001-01-01 (a Monday). -/
theorem rataDie_day_one : rataDie ⟨1, 1, 1⟩ = 1 := by decide

/-- Rata-die anchor: 2024-02-04 is a Sunday (`% 7 = 0`). -/
theorem rataDie_sunday_anchor : rataDie ⟨2024, 2, 4⟩ % 7 = 0 := by decide

/-- The start-instant comparator is transitive. -/
theorem startLE_trans : ∀ a b c : CalendarEvent,
    startLE a b = true → startLE b c = true → startLE a c = true := by
  intro a b c hab hbc
  simp only [startLE, decide_eq_true_eq] at *
  omega

/-- The start-instant comparator is total. -/
theorem startLE_total : ∀ a b : CalendarEvent, (startLE a b || startLE b a) = true := by
  intro a b
  simp only [startLE, Bool.or_eq_true, decide_eq_true_eq]
  omega

/-- A stable sort keeps the elements selected by a predicate on which the
comparator is constantly true in their original relative order. -/
theorem mergeSort_filter_key {α : Type} (le : α → α → Bool)
    (htrans : ∀ a b c, le a b = true → le b c = true → le a c = true)
    (htotal : ∀ a b, (le a b || le b a) = true)
    (l : List α) (p : α → Bool)
    (hp : ∀ a b, p a = true → p b = true → le a b = true) :
    (l.mergeSort le).filter p = l.filter p := by
  have hpair : (l.filter p).Pairwise (fun a b => le a b = true) :=
    List.pairwise_of_forall_mem_list fun a ha b hb =>
      hp a b (List.of_mem_filter ha) (List.of_mem_filter hb)
  have hsub : List.Sublist (l.filter p) (l.mergeSort le) :=
    List.sublist_mergeSort htrans htotal hpair (List.filter_sublist l)
  have hself : (l.filter p).filter p = l.filter p :=
    List.filter_eq_self.mpr fun a ha => List.of_mem_filter ha
  have hsub2 : List.Sublist (l.filter p) ((l.mergeSort le).filter p) := by
    have h3 := List.Sublist.filter p hsub
    rwa [hself] at h3
  have hperm : ((l.mergeSort le).filter p).Perm (l.filter p) :=
    List.Perm.filter p (List.mergeSort_perm l le)
  exact (List.Sublist.eq_of_length hsub2 hperm.length_eq.symm).symm

/-- On valid instants, the source's three-clause per-date test (day-interval
membership, same start day, or same end day) coincides with the
specification's interval-intersection test, provided End ≥ Start. -/
theorem dateCond_eq_spec (d : Instant) (e : CalendarEvent)
    (hs : ValidInstant e.startDate) (he : ValidInstant e.endDate)
    (hd : ValidInstant d)
    (hse : toMillis e.startDate ≤ toMillis e.endDate) :
    (isWithinInterval (startOfDay d) (startOfDay e.startDate) (endOfDay e.endDate)
      || isSameDay e.startDate d || isSameDay e.endDate d) = specDateCond d e := by
  obtain ⟨-, hs1, hs2, hs3, hs4⟩ := hs
  obtain ⟨-, he1, he2, he3, he4⟩ := he
  obtain ⟨-, hd1, hd2, hd3, hd4⟩ := hd
  rw [Bool.eq_iff_iff]
  simp only [isWithinInterval, isSameDay, specDateCond, startOfDay, endOfDay, toMillis,
    offsetMs, Bool.or_eq_true, decide_eq_true_eq] at *
  omega

/-- C4: for every event list (whose events are real JS dates with
End ≥ Start) and every date, `getEventsForDate` returns exactly the events
`e` with `e.start ≤ endOfDay d` and `e.end ≥ startOfDay d` (as a
permutation of the filtered input), the result is sorted ascending by
start instant, and ties are kept in stable input order (the sub-list at
each start instant is the input sub-list at that instant). -/
theorem getEventsForDate_spec (events : List CalendarEvent) (d : Instant)
    (hd : ValidInstant d)
    (hv : ∀ e ∈ events, ValidInstant e.startDate ∧ ValidInstant e.endDate)
    (hse : ∀ e ∈ events, toMillis e.startDate ≤ toMillis e.endDate) :
    (getEventsForDate events d).Perm (events.filter (specDateCond d)) ∧
    (getEventsForDate events d).Pairwise
      (fun a b => toMillis a.startDate ≤ toMillis b.startDate) ∧
    ∀ t : Int,
      (getEventsForDate events d).filter (fun e => decide (toMillis e.startDate = t))
        = (events.filter (specDateCond d)).filter
            (fun e => decide (toMillis e.startDate = t)) := by
  have hfc : (events.filter fun event =>
        isWithinInterval (startOfDay d) (startOfDay event.startDate) (endOfDay event.endDate)
          || isSameDay event.startDate d || isSameDay event.endDate d)
      = events.filter (specDateCond d) :=
    List.filter_congr fun e he => dateCond_eq_spec d e (hv e he).1 (hv e he).2 hd (hse e he)
  unfold getEventsForDate
  rw [hfc]
  refine ⟨List.mergeSort_perm _ _, ?_, ?_⟩
  · have hp := List.sorted_mergeSort startLE_trans startLE_total
      (events.filter (specDateCond d))
    exact hp.imp fun hab => by simpa [startLE] using hab
  · intro t
    exact mergeSort_filter_key startLE startLE_trans startLE_total _ _
      fun a b ha hb => by
        simp only [decide_eq_true_eq] at ha hb
        simp [startLE, ha, hb]

/-- C4 witness: the bucketing theorem applied to a concrete two-event list
and date. -/
theorem getEventsForDate_spec_witness :
    (getEventsForDate [ev1, ev2] day10).Perm ([ev1, ev2].filter (specDateCond day10)) :=
  (getEventsForDate_spec [ev1, ev2] day10 (by decide) (by decide) (by decide)).1

/-- C2 (amended): for a non-empty week range, `getEventsForWeek` returns
exactly the events whose start instant *or* end instant lies within
`[startOfDay first, endOfDay last]` (as a permutation of the filtered
input), sorted ascending by start instant with stable ties.  An event
covering the whole range with both endpoints outside it is *not* returned. -/
theorem getEventsForWeek_amended (events : List CalendarEvent) (weekDays : List Instant)
    (ws we : Instant) (h1 : weekDays.head? = some ws) (h2 : weekDays.getLast? = some we) :
    (getEventsForWeek events weekDays).Perm
      (events.filter fun event =>
        isWithinInterval event.startDate (startOfDay ws) (endOfDay we)
          || isWithinInterval event.endDate (startOfDay ws) (endOfDay we)) ∧
    (getEventsForWeek events weekDays).Pairwise
      (fun a b => toMillis a.startDate ≤ toMillis b.startDate) ∧
    ∀ t : Int,
      (getEventsForWeek events weekDays).filter (fun e => decide (toMillis e.startDate = t))
        = (events.filter fun event =>
            isWithinInterval event.startDate (startOfDay ws) (endOfDay we)
              || isWithinInterval event.endDate (startOfDay ws) (endOfDay we)).filter
            (fun e => decide (toMillis e.startDate = t)) := by
  unfold getEventsForWeek
  rw [h1, h2]
  refine ⟨List.mergeSort_perm _ _, ?_, ?_⟩
  · have hp := List.sorted_mergeSort startLE_trans startLE_total
      (events.filter fun event =>
        isWithinInterval event.startDate (startOfDay ws) (endOfDay we)
          || isWithinInterval event.endDate (startOfDay ws) (endOfDay we))
    exact hp.imp fun hab => by simpa [startLE] using hab
  · intro t
    exact mergeSort_filter_key startLE startLE_trans startLE_total _ _
      fun a b ha hb => by
        simp only [decide_eq_true_eq] at ha hb
        simp [startLE, ha, hb]

/-- C2 counterexample: an event that starts before the week and ends after
it (it touches every day of the week, so the claimed intersection test
would return it) is dropped by `getEventsForWeek`. -/
theorem getEventsForWeek_cex :
    getEventsForWeek [spanEvent] week0 = [] ∧
    week0.head? = some day10 ∧ week0.getLast? = some day16 ∧
    toMillis spanEvent.startDate ≤ toMillis (endOfDay day16) ∧
    toMillis (startOfDay day10) ≤ toMillis spanEvent.endDate ∧
    toMillis spanEvent.startDate ≤ toMillis spanEvent.endDate := by
  refine ⟨?_, by decide, by decide, by decide, by decide, by decide⟩
  have h1 : week0.head? = some day10 := by decide
  have h2 : week0.getLast? = some day16 := by decide
  have hcond : (isWithinInterval spanEvent.startDate (startOfDay day10) (endOfDay day16)
      || isWithinInterval spanEvent.endDate (startOfDay day10) (endOfDay day16)) = false := by
    decide
  unfold getEventsForWeek
  rw [h1, h2]
  simp only [List.filter_cons, List.filter_nil, hcond, if_false, Bool.false_eq_true,
    List.mergeSort_nil]

/-- C2 witness: the amended theorem applied to a concrete week. -/
theorem getEventsForWeek_amended_witness :
    (getEventsForWeek [ev1, ev2] week0).Perm
      ([ev1, ev2].filter fun event =>
        isWithinInterval event.startDate (startOfDay day10) (endOfDay day16)
          || isWithinInterval event.endDate (startOfDay day10) (endOfDay day16)) :=
  (getEventsForWeek_amended [ev1, ev2] week0 day10 day16 (by decide) (by decide)).1

/-- C10: called with an empty week-day list, `getEventsForWeek` returns the
empty list for every event list — the degenerate range is guarded before
any interval test runs. -/
theorem getEventsForWeek_empty (events : List CalendarEvent) :
    getEventsForWeek events [] = [] := rfl

/-- C1 (amended): converting an event to form fields and back with the same
identity reproduces it exactly provided the title carries no surrounding
whitespace, the description is absent or non-empty without surrounding
whitespace, the color is present and non-empty, the category is absent or
non-empty, and the start/end instants carry no seconds or milliseconds.
Without these restrictions the law fails — e.g. an absent color comes back
as the first palette color (see the counterexample). -/
theorem roundTrip_amended (e : CalendarEvent) (freshId : String)
    (hvt : e.title ≠ "")
    (hvs : toMillis e.startDate < toMillis e.endDate)
    (htitle : jsTrim e.title = e.title)
    (hdesc : e.description.all (fun s => jsTrim s == s && s != "") = true)
    (hcolor : e.color.elim false (fun c => c != "") = true)
    (hcat : e.category.all (fun c => c != "") = true)
    (hs2 : e.startDate.second = 0) (hs3 : e.startDate.ms = 0)
    (he2 : e.endDate.second = 0) (he3 : e.endDate.ms = 0) :
    formDataToEvent (eventToFormData e) (some e.id) freshId = some e := by
  obtain ⟨id, title, desc, sd, ed, col, cat⟩ := e
  obtain ⟨sdd, sdh, sdm, sds, sdms⟩ := sd
  obtain ⟨edd, edh, edm, eds, edms⟩ := ed
  dsimp only at hs2 hs3 he2 he3 htitle hdesc hcolor hcat
  subst hs2 hs3 he2 he3
  cases col with
  | none => simp [Option.elim] at hcolor
  | some c =>
    simp only [Option.elim, bne_iff_ne, ne_eq, decide_eq_true_eq] at hcolor
    cases desc with
    | none =>
      cases cat with
      | none =>
        simp [formDataToEvent, eventToFormData, parseDateTimeInputs, combineDT,
          htitle, hcolor, show jsTrim "" = "" from by decide]
      | some cc =>
        simp only [Option.all_some, Bool.and_eq_true, beq_iff_eq, bne_iff_ne, ne_eq,
          decide_eq_true_eq] at hcat
        simp [formDataToEvent, eventToFormData, parseDateTimeInputs, combineDT,
          htitle, hcolor, hcat, show jsTrim "" = "" from by decide]
    | some s =>
      simp only [Option.all_some, Bool.and_eq_true, beq_iff_eq, bne_iff_ne, ne_eq,
        decide_eq_true_eq] at hdesc
      cases cat with
      | none =>
        simp [formDataToEvent, eventToFormData, parseDateTimeInputs, combineDT,
          htitle, hcolor, hdesc.1, hdesc.2]
      | some cc =>
        simp only [Option.all_some, Bool.and_eq_true, beq_iff_eq, bne_iff_ne, ne_eq,
          decide_eq_true_eq] at hcat
        simp [formDataToEvent, eventToFormData, parseDateTimeInputs, combineDT,
          htitle, hcolor, hcat, hdesc.1, hdesc.2]

/-- C1 counterexample: a data-model-valid event (non-empty title, End after
Start) with an absent color does not survive the round trip — it comes back
with the first palette color. -/
theorem roundTrip_cex :
    noColorEvent.title ≠ "" ∧
    toMillis noColorEvent.startDate < toMillis noColorEvent.endDate ∧
    formDataToEvent (eventToFormData noColorEvent) (some noColorEvent.id) "fresh"
      ≠ some noColorEvent := by
  refine ⟨by decide, by decide, ?_⟩
  decide

/-- C1 witness: the amended round-trip law at a concrete event. -/
theorem roundTrip_amended_witness :
    formDataToEvent (eventToFormData rtEvent) (some rtEvent.id) "fresh" = some rtEvent :=
  roundTrip_amended rtEvent "fresh" (by decide) (by decide) (by decide) (by decide)
    (by decide) (by decide) (by decide) (by decide) (by decide) (by decide)

/-- C5 (amended): with all four date/time fields present, a combined End
instant ≤ the combined Start instant always attaches "End must be after
start" to the end-date field; and End strictly after Start with all
required fields present *and the title and description within their
100/500-character limits* returns the empty error mapping.  (A present but
over-long title still yields an error, so the limits cannot be dropped —
see the counterexample.) -/
theorem validateEventForm_spec :
    (∀ (f : EventFormData) (sd : CDate) (st : TimeHM) (ed : CDate) (et : TimeHM),
      f.startDate = some sd → f.startTime = some st →
      f.endDate = some ed → f.endTime = some et →
      toMillis (combineDT ed (some et)) ≤ toMillis (combineDT sd (some st)) →
      (validateEventForm f).endDate = some "End must be after start") ∧
    (∀ (f : EventFormData) (sd : CDate) (st : TimeHM) (ed : CDate) (et : TimeHM),
      f.startDate = some sd → f.startTime = some st →
      f.endDate = some ed → f.endTime = some et →
      jsTrim f.title ≠ "" → f.title.length ≤ 100 → f.description.length ≤ 500 →
      toMillis (combineDT sd (some st)) < toMillis (combineDT ed (some et)) →
      validateEventForm f = {}) := by
  constructor
  · intro f sd st ed et h1 h2 h3 h4 hle
    simp [validateEventForm, h1, h2, h3, h4, hle]
  · intro f sd st ed et h1 h2 h3 h4 htitle h100 h500 hgt
    have h100n : ¬ (f.title.length > 100) := by omega
    have h500n : ¬ (f.description ≠ "" ∧ f.description.length > 500) :=
      fun h => absurd h.2 (by omega)
    have hlen : ¬ (toMillis (combineDT ed (some et)) ≤ toMillis (combineDT sd (some st))) :=
      not_le.mpr hgt
    simp [validateEventForm, h1, h2, h3, h4, htitle, h100n, h500n, hlen]

/-- C5 counterexample: all five required fields are present and End is
strictly after Start, yet the error mapping is not empty, because the
(present) title has 101 characters. -/
theorem validateEventForm_cex :
    longTitleForm.title ≠ "" ∧
    longTitleForm.startDate.isSome = true ∧ longTitleForm.startTime.isSome = true ∧
    longTitleForm.endDate.isSome = true ∧ longTitleForm.endTime.isSome = true ∧
    toMillis (combineDT ⟨2024, 3, 10⟩ (some ⟨9, 0⟩))
      < toMillis (combineDT ⟨2024, 3, 10⟩ (some ⟨10, 0⟩)) ∧
    validateEventForm longTitleForm ≠ {} := by
  decide

/-- C5 witness: the amended theorem applied to a concrete valid form. -/
theorem validateEventForm_spec_witness : validateEventForm okForm = {} :=
  validateEventForm_spec.2 okForm ⟨2024, 3, 10⟩ ⟨9, 0⟩ ⟨2024, 3, 10⟩ ⟨10, 0⟩ rfl rfl rfl rfl
    (by decide) (by decide) (by decide) (by decide)

/-- C6 (amended): `getDefaultFormData` takes `now` to be the clicked date
when one is supplied (so both the date *and* the hour come from the clicked
date) and the clock otherwise; it pins both date fields to `now`'s civil
date, sets the start time to `(now.hour + 1):00` and the end time to
`(now.hour + 2):00`, and fills the remaining fields with the empty title
and description, the first palette color, and the empty category.  The two
times are valid `HH:mm` times of day whenever `now.hour ≤ 21`; at a later
hour they overflow past 23:00 (see the counterexample). -/
theorem getDefaultFormData_amended (clock : Instant) (date : Option Instant) :
    getDefaultFormData clock date =
      { title := "", description := "",
        startDate := some (date.getD clock).date,
        startTime := some ⟨(date.getD clock).hour + 1, 0⟩,
        endDate := some (date.getD clock).date,
        endTime := some ⟨(date.getD clock).hour + 2, 0⟩,
        color := "#3b82f6", category := "" } ∧
    ((date.getD clock).hour ≤ 21 →
      ValidTimeHM ⟨(date.getD clock).hour + 1, 0⟩ ∧
        ValidTimeHM ⟨(date.getD clock).hour + 2, 0⟩) := by
  constructor
  · rfl
  · intro h
    simp only [ValidTimeHM]
    omega

/-- C6 counterexample: at a normalized 23:30 clock with no clicked date the
generated start time is the out-of-range 24:00, which is not a valid
`HH:mm` time of day. -/
theorem getDefaultFormData_cex :
    ValidInstant clock23 ∧
    (getDefaultFormData clock23 none).startTime = some ⟨24, 0⟩ ∧
    ¬ ValidTimeHM ⟨24, 0⟩ := by
  decide

/-- C6 witness: the amended theorem applied at a 14:05 clock. -/
theorem getDefaultFormData_amended_witness :
    ValidTimeHM ⟨clock14.hour + 1, 0⟩ ∧ ValidTimeHM ⟨clock14.hour + 2, 0⟩ := by
  have h := (getDefaultFormData_amended clock14 none).2
  simp only [Option.getD_none] at h
  exact h (by decide)

/-- C7: the vertical position equals `(h*60+m)/1440*100`, depends only on
the time of day, lies in `[0, 100)`, is 0 at midnight and 50 at noon, and
lies strictly between 99 and 100 at 23:59. -/
theorem getTimeSlotPosition_spec (i : Instant) (hh : i.hour ≤ 23) (hm : i.minute ≤ 59) :
    getTimeSlotPosition i = (((i.hour : ℚ) * 60 + (i.minute : ℚ)) / 1440) * 100 ∧
    (∀ j : Instant, j.hour = i.hour → j.minute = i.minute →
      getTimeSlotPosition j = getTimeSlotPosition i) ∧
    0 ≤ getTimeSlotPosition i ∧ getTimeSlotPosition i < 100 ∧
    (i.hour = 0 → i.minute = 0 → getTimeSlotPosition i = 0) ∧
    (i.hour = 12 → i.minute = 0 → getTimeSlotPosition i = 50) ∧
    (i.hour = 23 → i.minute = 59 →
      99 < getTimeSlotPosition i ∧ getTimeSlotPosition i < 100) := by
  have hkey : ((i.hour : ℚ) * 60 + (i.minute : ℚ)) ≤ 1439 := by
    have hq1 : (i.hour : ℚ) ≤ 23 := by exact_mod_cast hh
    have hq2 : (i.minute : ℚ) ≤ 59 := by exact_mod_cast hm
    linarith
  refine ⟨by unfold getTimeSlotPosition; norm_num,
    fun j hj hm2 => by unfold getTimeSlotPosition; rw [hj, hm2], ?_, ?_, ?_, ?_, ?_⟩
  · unfold getTimeSlotPosition
    positivity
  · unfold getTimeSlotPosition
    rw [div_mul_eq_mul_div, div_lt_iff₀ (by norm_num)]
    linarith
  · intro h0 hm0
    unfold getTimeSlotPosition
    rw [h0, hm0]
    norm_num
  · intro h12 hm0
    unfold getTimeSlotPosition
    rw [h12, hm0]
    norm_num
  · intro h23 hm59
    unfold getTimeSlotPosition
    rw [h23, hm59]
    norm_num

/-- C7 witness: the position theorem at 23:59 of a concrete date. -/
theorem getTimeSlotPosition_spec_witness :
    99 < getTimeSlotPosition lateInstant ∧ getTimeSlotPosition lateInstant < 100 :=
  (getTimeSlotPosition_spec lateInstant (by decide) (by decide)).2.2.2.2.2.2 rfl rfl

/-- C8 counterexample: a pair of instants thirty seconds apart — End
strictly after Start — yields height 0, which is outside `(0, 100]`. -/
theorem getEventHeight_cex :
    toMillis nineAM < toMillis nineAM30s ∧ getEventHeight nineAM nineAM30s = 0 := by
  refine ⟨by decide, ?_⟩
  unfold getEventHeight
  have h : differenceInMinutes nineAM30s nineAM = 0 := by decide
  rw [h]
  norm_num

/-- C8 (amended): the height always equals `differenceInMinutes/1440*100`
(with the minute count truncated toward zero), and it lies in `(0, 100]`
whenever the duration is between one minute and 24 hours.  A positive
duration under one minute truncates to height 0, so the unrestricted range
claim fails (see the counterexample). -/
theorem getEventHeight_spec (s e : Instant)
    (h1 : 60000 ≤ toMillis e - toMillis s) (h2 : toMillis e - toMillis s ≤ 86400000) :
    getEventHeight s e = ((differenceInMinutes e s : ℚ) / 1440) * 100 ∧
    0 < getEventHeight s e ∧ getEventHeight s e ≤ 100 := by
  have htd : differenceInMinutes e s = (toMillis e - toMillis s) / 60000 := by
    unfold differenceInMinutes
    exact Int.tdiv_eq_ediv (by omega) (by omega)
  have hb : 1 ≤ differenceInMinutes e s ∧ differenceInMinutes e s ≤ 1440 := by
    rw [htd]
    constructor <;> omega
  have hq1 : (1 : ℚ) ≤ (differenceInMinutes e s : ℚ) := by exact_mod_cast hb.1
  have hq2 : (differenceInMinutes e s : ℚ) ≤ 1440 := by exact_mod_cast hb.2
  refine ⟨by unfold getEventHeight; norm_num, ?_, ?_⟩
  · unfold getEventHeight
    have h0 : (0 : ℚ) < (differenceInMinutes e s : ℚ) := by linarith
    exact mul_pos (div_pos h0 (by norm_num)) (by norm_num)
  · unfold getEventHeight
    rw [div_mul_eq_mul_div, div_le_iff₀ (by norm_num)]
    linarith

/-- C8 witness: the amended height theorem on a one-hour event. -/
theorem getEventHeight_spec_witness : 0 < getEventHeight nineAM tenAM :=
  (getEventHeight_spec nineAM tenAM (by decide) (by decide)).2.1

/-- C9: a title that trims to a non-empty string of at most 100 characters
but whose raw form exceeds 100 characters still triggers the length error —
the limit is checked on the untrimmed title — even though `formDataToEvent`
would commit only the trimmed title. -/
theorem validateEventForm_untrimmed_title (f : EventFormData)
    (h1 : jsTrim f.title ≠ "") (h2 : (jsTrim f.title).length ≤ 100)
    (h3 : 100 < f.title.length) :
    (validateEventForm f).title = some "Title must be 100 characters or less" ∧
    ∀ (oid : Option String) (fid : String) (ev : CalendarEvent),
      formDataToEvent f oid fid = some ev → ev.title = jsTrim f.title := by
  constructor
  · have h3' : f.title.length > 100 := h3
    rcases hsd : f.startDate with _ | sd <;> rcases hst : f.startTime with _ | st <;>
        rcases hed : f.endDate with _ | ed <;> rcases het : f.endTime with _ | et <;>
        simp only [validateEventForm, hsd, hst, hed, het] <;>
        simp only [if_neg h1, if_pos h3'] <;>
      split_ifs <;> rfl
  · intro oid fid ev h
    unfold formDataToEvent at h
    split at h
    · cases h
      rfl
    · cases h

/-- C9 witness: the untrimmed-title theorem at a 102-character title that
trims to 100 characters. -/
theorem validateEventForm_untrimmed_title_witness :
    (validateEventForm paddedTitleForm).title
      = some "Title must be 100 characters or less" :=
  (validateEventForm_untrimmed_title paddedTitleForm (by decide) (by decide) (by decide)).1
